import Mathlib

/-!
Verification of the generic-type resolution and function-selector derivation
engine of `fuel-abi-types` (module `fn_selector`, with its helpers from
`utils.rs` and the surrounding `abi` layer).

The Rust sources are embedded shallowly:

* `TypeApplication` / `TypeDeclaration` are the `program_abi` input shapes
  consumed by `fn_selector` (the old-schema module; its shape is fixed by the
  spec's external-interface section and by the constructors used throughout
  `src/fn_selector/resolver.rs`).
* Rust `Result` plus the two panic sites plus possible non-termination of the
  id-graph recursion are modelled by the four-way outcome type `PRes`:
  `ok`, `err` (a returned `Err`), `panic` (a Rust `panic!`/`expect` abort,
  carrying the panic message) and `diverge` (the recursion ran out of fuel;
  `ResolvedType::resolve` recurses through the type lookup, so on a cyclic
  document the Rust original loops forever — every function below takes an
  explicit fuel and is a faithful image of the source for every outcome other
  than `diverge`).
* The regular expressions of `utils.rs` are implemented as the equivalent
  deterministic character scans (the character classes at each boundary are
  disjoint, so the backtracking regexes match exactly what the scans accept).
* SHA-256 itself lives in the external `sha2` crate, so the selector hasher is
  parameterised by the digest function; nothing proved below depends on the
  digest's values, only on its 32-byte length.
-/

namespace FuelAbi

/-- Modelled from the spec: the `program_abi` Type Application shape
(`{name, type_id, type_arguments}`) referenced by `fn_selector/resolver.rs`;
the defining module is not among the repository files, but the spec's
external-interface section and the test constructors fix it. -/
inductive TypeApplication where
  | mk (name : String) (type_id : Nat) (type_arguments : Option (List TypeApplication))

def TypeApplication.name : TypeApplication → String
  | .mk n _ _ => n

def TypeApplication.type_id : TypeApplication → Nat
  | .mk _ i _ => i

def TypeApplication.type_arguments : TypeApplication → Option (List TypeApplication)
  | .mk _ _ a => a

/-- Modelled from the spec: the `program_abi` Type Declaration shape
(`{type_id, type_field, components, type_parameters}`). -/
structure TypeDeclaration where
  type_id : Nat
  type_field : String
  components : Option (List TypeApplication)
  type_parameters : Option (List Nat)

/-- `ResolvedType` of `src/fn_selector/resolved_type.rs`: a fully substituted
type tree (tag, bound generic parameters, resolved components). -/
inductive ResolvedType where
  | mk (type_field : String) (generic_params : List ResolvedType) (components : List ResolvedType)

def ResolvedType.type_field : ResolvedType → String
  | .mk tf _ _ => tf

def ResolvedType.generic_params : ResolvedType → List ResolvedType
  | .mk _ g _ => g

def ResolvedType.components : ResolvedType → List ResolvedType
  | .mk _ _ c => c

/-- Modelled from the spec: the one error variant `fn_selector` produces.
`error_codes.rs` as shipped holds only the revert-code enum; the variant name
`Error::FnSelectorResolving` is fixed by both `ok_or_else` sites in
`src/fn_selector/resolved_type.rs` (unknown type id, unresolved generic —
the spec's `UnknownTypeId` / `UnresolvedGeneric` conditions). -/
inductive Error where
  | FnSelectorResolving

/-- Outcome of running a piece of the Rust pipeline: a value, a returned
`Err`, a `panic!` with its message, or non-termination (fuel exhausted). -/
inductive PRes (α : Type) where
  | ok : α → PRes α
  | err : Error → PRes α
  | panic : String → PRes α
  | diverge : PRes α

/-- Sequencing that propagates `Err`, panics and divergence, exactly as `?`
and eager iterator evaluation do in the source. -/
def PRes.bind : PRes α → (α → PRes β) → PRes β
  | .ok a, f => f a
  | .err e, _ => .err e
  | .panic m, _ => .panic m
  | .diverge, _ => .diverge

/-- The whitespace class of the `utils.rs` regexes, restricted to the ASCII
whitespace characters (the inputs of interest are ASCII). -/
def isWs (c : Char) : Bool :=
  c == ' ' || c == '\t' || c == '\n' || c == '\r' || c == '\x0b' || c == '\x0c'

/-- Decimal value of a digit run. -/
def natOfDigits (l : List Char) : Nat :=
  l.foldl (fun acc c => acc * 10 + (c.toNat - 48)) 0

/-- `extract_generic_name` of `src/utils.rs`: the regex
`^\s*generic\s+(\S+)\s*$` as a deterministic scan — optional whitespace, the
literal `generic`, at least one whitespace, a maximal nonempty non-whitespace
run (the captured name), then only whitespace to the end. -/
def extract_generic_name (type_name : String) : Option String :=
  let l := type_name.toList.dropWhile isWs
  if l.take 7 = "generic".toList then
    let rest := l.drop 7
    let rest2 := rest.dropWhile isWs
    if rest2.length < rest.length then
      let nm := rest2.takeWhile (fun c => !(isWs c))
      if !nm.isEmpty && (rest2.drop nm.length).all isWs then
        some (String.mk nm)
      else none
    else none
  else none

/-- `extract_array_len` of `src/utils.rs`: the regex
`^\s*\[.+;\s*(\d+)\s*\]\s*$` as a deterministic scan. Reading from the right:
trailing whitespace, `]`, whitespace, a nonempty digit run (the length),
whitespace, `;`, and between the opening `[` and that `;` a nonempty stretch
without a newline (regex `.` does not match a newline). The digit run always
parses, so the `parse::<usize>().unwrap_or_else(panic!)` arm of the source is
unreachable here (`Nat` does not overflow). -/
def extract_array_len (type_name : String) : Option Nat :=
  let l := type_name.toList.dropWhile isWs
  match l with
  | '[' :: rest =>
    let r := rest.reverse
    let r1 := r.dropWhile isWs
    match r1 with
    | ']' :: r2 =>
      let r3 := r2.dropWhile isWs
      let digitsR := r3.takeWhile Char.isDigit
      let r4 := r3.drop digitsR.length
      let r5 := r4.dropWhile isWs
      match digitsR, r5 with
      | _ :: _, ';' :: midR =>
        if !midR.isEmpty && midR.all (fun c => c != '\n') then
          some (natOfDigits digitsR.reverse)
        else none
      | _, _ => none
    | _ => none
  | _ => none

/-- The Type Lookup (`HashMap<usize, TypeDeclaration>`), as an association
list with the map's lookup-by-key semantics. -/
abbrev Lookup := List (Nat × TypeDeclaration)

/-- The generic substitution context `&[(usize, ResolvedType)]`. -/
abbrev Ctx := List (Nat × ResolvedType)

/-- `type_lookup.get(&id)`. -/
def lookupGet (lookup : Lookup) (id : Nat) : Option TypeDeclaration :=
  match lookup.find? (fun p => p.1 == id) with
  | some p => some p.2
  | none => none

/-- `opt.iter().flatten()` over an `Option<Vec<_>>`. -/
def optList : Option (List α) → List α
  | some l => l
  | none => []

/-- `iter().map(f).collect::<Result<Vec<_>>>()`: first failure wins, later
elements are not evaluated. -/
def rmap (f : α → PRes β) : List α → PRes (List β)
  | [] => .ok []
  | x :: xs => (f x).bind fun y => (rmap f xs).bind fun ys => .ok (y :: ys)

/-- Body of `ResolvedType::determine_generics_for_type`
(`src/fn_selector/resolved_type.rs` lines 92-136), abstracted over the
recursive call `Self::resolve(ty, type_lookup, parent_generic_params)`. -/
def determine_generics_core (resolveArg : TypeApplication → PRes ResolvedType)
    (ta : TypeApplication) (decl : TypeDeclaration) (parent : Ctx) : PRes Ctx :=
  match decl.type_parameters with
  | some params =>
    if params.isEmpty then .ok parent
    else
      (rmap resolveArg (optList ta.type_arguments)).bind fun fromCurrent =>
      let toUse := if !fromCurrent.isEmpty then fromCurrent
                   else parent.map (fun p => p.2)
      .ok (params.zip toUse)
  | none => .ok parent

/-- `ResolvedType::resolve` (`src/fn_selector/resolved_type.rs` lines 30-81),
with explicit fuel: the recursion walks the lookup by id, so it is not
structural on its input. -/
def resolve : Nat → TypeApplication → Lookup → Ctx → PRes ResolvedType
  | 0, _, _, _ => .diverge
  | fuel + 1, ta, lookup, parent =>
    match lookupGet lookup ta.type_id with
    | none => .err .FnSelectorResolving
    | some decl =>
      if (extract_generic_name decl.type_field).isSome then
        match parent.find? (fun p => p.1 == ta.type_id) with
        | some pr => .ok pr.2
        | none => .err .FnSelectorResolving
      else
        (determine_generics_core (fun ty => resolve fuel ty lookup parent)
            ta decl parent).bind fun ctx =>
        (rmap (fun c => resolve fuel c lookup ctx) (optList decl.components)).bind fun comps =>
        .ok (.mk decl.type_field (ctx.map (fun p => p.2)) comps)

/-- `ResolvedType::determine_generics_for_type` as called by `resolve` at the
given fuel. -/
def determine_generics_for_type (fuel : Nat) (ta : TypeApplication) (lookup : Lookup)
    (decl : TypeDeclaration) (parent : Ctx) : PRes Ctx :=
  determine_generics_core (fun ty => resolve fuel ty lookup parent) ta decl parent

/-- `ResolvedType::try_from`: resolution of a top-level argument starts from
the empty substitution context. -/
def ResolvedType.try_from (fuel : Nat) (ta : TypeApplication) (lookup : Lookup) :
    PRes ResolvedType :=
  resolve fuel ta lookup []

/-- `p` is a prefix of `l`, character by character. -/
def leadChars : List Char → List Char → Bool
  | [], _ => true
  | _ :: _, [] => false
  | a :: as, b :: bs => a == b && leadChars as bs

/-- Rust `str::starts_with`. -/
def strStarts (p s : String) : Bool := leadChars p.toList s.toList

/-- Rust `str::ends_with`. -/
def strEnds (p s : String) : Bool := leadChars p.toList.reverse s.toList.reverse

/-- `itertools::join(",")`. -/
def joinComma : List String → String
  | [] => ""
  | [s] => s
  | s :: rest => s ++ "," ++ joinComma rest

mutual
/-- `fnselectify` of `src/fn_selector/resolver.rs` lines 56-104: the canonical
signature encoder. The two `expect` calls of the array arm are the `panic`
outcomes; in the array arm only the FIRST component is ever encoded
(`.map(fnselectify).next()`), and a missing component panics before the length
is parsed. -/
def fnselectify : ResolvedType → PRes String
  | .mk tf gps comps =>
    if tf = "raw untyped slice" then .ok "rawslice"
    else if tf = "raw untyped ptr" then .ok "rawptr"
    else if strStarts "struct " tf then
      (fnselectifyList comps).bind fun cs =>
      (fnselectifyList gps).bind fun gs =>
      let generics := joinComma gs
      let generics_str := if generics = "" then "" else "<" ++ generics ++ ">"
      .ok ("s" ++ generics_str ++ "(" ++ joinComma cs ++ ")")
    else if strStarts "enum " tf then
      (fnselectifyList comps).bind fun cs =>
      (fnselectifyList gps).bind fun gs =>
      let generics := joinComma gs
      let generics_str := if generics = "" then "" else "<" ++ generics ++ ">"
      .ok ("e" ++ generics_str ++ "(" ++ joinComma cs ++ ")")
    else if strStarts "(" tf && strEnds ")" tf then
      (fnselectifyList comps).bind fun cs =>
      .ok ("(" ++ joinComma cs ++ ")")
    else if strStarts "[" tf && strEnds "]" tf then
      match comps with
      | [] => .panic "should have"
      | c :: _ =>
        (fnselectify c).bind fun inner =>
        match extract_array_len tf with
        | some len => .ok ("a[" ++ inner ++ ";" ++ toString len ++ "]")
        | none => .panic "should be ok"
    else .ok tf

/-- The encoder mapped over a list of resolved types (`iter().map(fnselectify)`
forced left to right). -/
def fnselectifyList : List ResolvedType → PRes (List String)
  | [] => .ok []
  | t :: ts =>
    (fnselectify t).bind fun s =>
    (fnselectifyList ts).bind fun ss =>
    .ok (s :: ss)
end

/-- One argument of `resolve_fn_signature`: `ResolvedType::try_from` then
`fnselectify`, element by element, stopping at the first failure. -/
def sigParts (fuel : Nat) (lookup : Lookup) : List TypeApplication → PRes (List String)
  | [] => .ok []
  | a :: rest =>
    (ResolvedType.try_from fuel a lookup).bind fun t =>
    (fnselectify t).bind fun s =>
    (sigParts fuel lookup rest).bind fun ss =>
    .ok (s :: ss)

/-- `resolve_fn_signature` of `src/fn_selector/resolver.rs` lines 41-54:
`format!("{name}({types})")` over the comma-joined encoded arguments. Note the
source performs no check of any kind on `name`. -/
def resolve_fn_signature (fuel : Nat) (name : String) (args : List TypeApplication)
    (lookup : Lookup) : PRes String :=
  (sigParts fuel lookup args).bind fun parts =>
  .ok (name ++ "(" ++ joinComma parts ++ ")")

/-- `&slice[..n]`: panics when `n` is out of range. -/
def sliceTo (l : List Nat) (n : Nat) : PRes (List Nat) :=
  if n ≤ l.length then .ok (l.take n)
  else .panic "range end index out of range"

/-- `&mut slice[n..]`: panics when `n` is out of range. -/
def sliceFrom (l : List Nat) (n : Nat) : PRes (List Nat) :=
  if n ≤ l.length then .ok (l.drop n)
  else .panic "range start index out of range"

/-- `<[u8]>::copy_from_slice`: panics unless source and destination have the
same length, with the lengths in the message. -/
def copy_from_slice (dst src : List Nat) : PRes (List Nat) :=
  if dst.length = src.length then .ok src
  else
    .panic ("source slice length (" ++ toString src.length ++
      ") does not match destination slice length (" ++ toString dst.length ++ ")")

/-- `first_four_bytes_of_sha256_hash` of `src/fn_selector/resolver.rs` lines
14-22, parameterised by the external SHA-256 digest function: a 4-byte zero
buffer, then `output[4..].copy_from_slice(&result[..4])`, then the buffer is
returned. `output[4..]` is the EMPTY tail of the 4-byte buffer. -/
def first_four_bytes_of_sha256_hash (sha256 : String → List Nat) (s : String) :
    PRes (List Nat) :=
  let result := sha256 s
  let output := List.replicate 4 0
  (sliceFrom output 4).bind fun dst =>
  (sliceTo result 4).bind fun first4 =>
  (copy_from_slice dst first4).bind fun written =>
  .ok (output.take 4 ++ written)

/-- `resolve_fn_selector` of `src/fn_selector/resolver.rs` lines 24-32. -/
def resolve_fn_selector (sha256 : String → List Nat) (fuel : Nat) (name : String)
    (args : List TypeApplication) (lookup : Lookup) : PRes (List Nat) :=
  (resolve_fn_signature fuel name args lookup).bind fun fn_signature =>
  first_four_bytes_of_sha256_hash sha256 fn_signature

mutual
/-- No node of the tree carries a generic placeholder tag ("generic <Name>"),
the invariant the spec states for resolution output. -/
def noGenericTag : ResolvedType → Bool
  | .mk tf gps comps =>
    (extract_generic_name tf).isNone && noGenericTagList gps && noGenericTagList comps

def noGenericTagList : List ResolvedType → Bool
  | [] => true
  | t :: ts => noGenericTag t && noGenericTagList ts
end

mutual
/-- `FullTypeDeclaration` of `src/abi/full_program.rs`. -/
inductive FullTypeDeclaration where
  | mk (type_field : String) (components : List FullTypeApplication)
      (type_parameters : List FullTypeDeclaration)

/-- `FullTypeApplication` of `src/abi/full_program.rs`. -/
inductive FullTypeApplication where
  | mk (name : String) (type_decl : FullTypeDeclaration)
      (type_arguments : List FullTypeApplication)
end

/-- `Attribute` of `src/abi/program.rs`. -/
structure Attribute where
  name : String
  arguments : List String

/-- `FullABIFunction` of `src/abi/full_program.rs`. -/
structure FullABIFunction where
  name : String
  inputs : List FullTypeApplication
  output : FullTypeApplication
  attributes : List Attribute

/-- `FullABIFunction::new` (`src/abi/full_program.rs` lines 173-189): the one
place in the repository that rejects an empty function name. The crate error
type behind the `error!` macro is a string wrapper, modelled as the message. -/
def FullABIFunction.new (name : String) (inputs : List FullTypeApplication)
    (output : FullTypeApplication) (attributes : List Attribute) :
    Except String FullABIFunction :=
  if name = "" then .error "FullABIFunction's name cannot be empty!"
  else .ok ⟨name, inputs, output, attributes⟩

/-- `UnifiedTypeApplication` of `src/abi/unified_program.rs`. -/
inductive UnifiedTypeApplication where
  | mk (name : String) (type_id : Nat) (error_message : Option String)
      (type_arguments : Option (List UnifiedTypeApplication))

/-- `UnifiedABIFunction` of `src/abi/unified_program.rs`. -/
structure UnifiedABIFunction where
  name : String
  inputs : List UnifiedTypeApplication
  output : UnifiedTypeApplication
  attributes : Option (List Attribute)

/-- `UnifiedABIFunction::new` (`src/abi/unified_program.rs` lines 141-157):
the abi layer's other function constructor, which likewise rejects an empty
name (and wraps the given attributes in `Some`). -/
def UnifiedABIFunction.new (name : String) (inputs : List UnifiedTypeApplication)
    (output : UnifiedTypeApplication) (attributes : List Attribute) :
    Except String UnifiedABIFunction :=
  if name = "" then .error "UnifiedABIFunction's name cannot be empty!"
  else .ok ⟨name, inputs, output, some attributes⟩

/-! Concrete documents, taken from the repository's own tests, used to
instantiate the theorems below at computable inputs. -/

/-- A stand-in digest function with SHA-256's 32-byte output length. -/
def digest32 : String → List Nat := fun _ => List.replicate 32 0

/-- The resolved `u8` primitive. -/
def u8R : ResolvedType := .mk "u8" [] []

/-- A lookup holding only the `u8` primitive at id 0. -/
def u8OnlyLookup : Lookup := [(0, ⟨0, "u8", none, none⟩)]

/-- The argument application `arg0` pointing at id 0. -/
def arg0 : TypeApplication := .mk "arg0" 0 none

/-- The `handles_generic_structs` test document: a generic placeholder, a
one-parameter struct over it, and `u8`. -/
def genLookup : Lookup :=
  [ (1, ⟨1, "generic T", none, none⟩)
  , (2, ⟨2, "struct SomeStruct", some [.mk "field" 1 none], some [1]⟩)
  , (3, ⟨3, "u8", none, none⟩) ]

/-- The struct declaration of `genLookup`. -/
def someStructDecl : TypeDeclaration :=
  ⟨2, "struct SomeStruct", some [.mk "field" 1 none], some [1]⟩

/-- The test's top-level application: `SomeStruct<u8>`. -/
def genApp : TypeApplication := .mk "arg" 2 (some [.mk "" 3 none])

/-- An array declaration that carries no components at all. -/
def arrNoCompLookup : Lookup := [(0, ⟨0, "[_; 10]", none, none⟩)]

/-- A unit full type application, as a placeholder output type. -/
def unitFullTA : FullTypeApplication := .mk "" (.mk "()" [] []) []

/-- A unified type application, as a placeholder output type. -/
def unitUnifiedTA : UnifiedTypeApplication := .mk "" 0 none none

/-! ## Helper lemmas -/

/-- Inversion of `PRes.bind` at an `ok` outcome. -/
theorem PRes.bind_eq_ok {α β : Type} {a : PRes α} {f : α → PRes β} {b : β}
    (h : a.bind f = .ok b) : ∃ x, a = .ok x ∧ f x = .ok b := by
  cases a with
  | ok x => exact ⟨x, rfl, h⟩
  | err e => exact PRes.noConfusion h
  | panic m => exact PRes.noConfusion h
  | diverge => exact PRes.noConfusion h

/-- Every element of a successful `rmap` run comes from a successful
application of `f` to an element of the input list. -/
theorem rmap_ok_mem {α β : Type} {f : α → PRes β} :
    ∀ {l : List α} {ys : List β}, rmap f l = .ok ys →
      ∀ y ∈ ys, ∃ x ∈ l, f x = .ok y := by
  intro l
  induction l with
  | nil =>
    intro ys h y hy
    simp only [rmap, PRes.ok.injEq] at h
    subst h
    cases hy
  | cons x xs ih =>
    intro ys h y hy
    simp only [rmap] at h
    obtain ⟨y0, hy0, h2⟩ := PRes.bind_eq_ok h
    obtain ⟨ys0, hys0, h3⟩ := PRes.bind_eq_ok h2
    have hcons : y0 :: ys0 = ys := by
      simpa using h3
    subst hcons
    rcases List.mem_cons.mp hy with hEq | hMem
    · exact ⟨x, List.mem_cons_self x xs, hEq ▸ hy0⟩
    · obtain ⟨x2, hx2, hfx2⟩ := ih hys0 y hMem
      exact ⟨x2, List.mem_cons_of_mem x hx2, hfx2⟩

/-- The list form of the no-generic-tag invariant, element by element. -/
theorem noGenericTagList_iff {l : List ResolvedType} :
    noGenericTagList l = true ↔ ∀ t ∈ l, noGenericTag t = true := by
  induction l with
  | nil => simp [noGenericTagList]
  | cons t ts ih =>
    simp [noGenericTagList, Bool.and_eq_true, ih]

/-- A character-prefix match forces the subject's first character. -/
theorem leadChars_cons {a : Char} {as l : List Char}
    (h : leadChars (a :: as) l = true) :
    ∃ bs, l = a :: bs ∧ leadChars as bs = true := by
  cases l with
  | nil => exact Bool.noConfusion h
  | cons b bs =>
    simp only [leadChars, Bool.and_eq_true, beq_iff_eq] at h
    exact ⟨bs, by rw [h.1], h.2⟩

/-- Elements of a zip, position by position. -/
theorem zip_getElem?_eq {α β : Type} :
    ∀ (l1 : List α) (l2 : List β) (k : Nat) (a : α) (b : β),
      (l1.zip l2)[k]? = some (a, b) → l1[k]? = some a ∧ l2[k]? = some b := by
  intro l1
  induction l1 with
  | nil => intro l2 k a b h; simp [List.zip] at h
  | cons x xs ih =>
    intro l2 k a b h
    cases l2 with
    | nil => simp [List.zip] at h
    | cons y ys =>
      cases k with
      | zero =>
        simp only [List.zip_cons_cons, List.getElem?_cons_zero, Option.some.injEq,
          Prod.mk.injEq] at h
        simp [h.1, h.2]
      | succ k =>
        simp only [List.zip_cons_cons, List.getElem?_cons_succ] at h ⊢
        exact ih ys k a b h

/-! ## The claims -/

/-- C1: the selector hasher is claimed to return the first 4 bytes of the
SHA-256 digest; the source instead writes those 4 bytes into `output[4..]`,
the EMPTY tail of its 4-byte buffer, so `copy_from_slice` aborts on the length
mismatch for every signature string and every 32-byte (indeed every at least
4-byte) digest — the function never returns any bytes at all. -/
theorem first_four_bytes_of_sha256_hash_always_panics
    (sha256 : String → List Nat) (s : String) (h : 4 ≤ (sha256 s).length) :
    first_four_bytes_of_sha256_hash sha256 s
      = .panic "source slice length (4) does not match destination slice length (0)"
    ∧ ∀ bytes, first_four_bytes_of_sha256_hash sha256 s ≠ .ok bytes := by
  have hlen : ((sha256 s).take 4).length = 4 := by
    rw [List.length_take]
    omega
  have hmain : first_four_bytes_of_sha256_hash sha256 s
      = .panic "source slice length (4) does not match destination slice length (0)" := by
    unfold first_four_bytes_of_sha256_hash sliceFrom sliceTo copy_from_slice
    simp only [List.length_replicate, List.drop_replicate, Nat.le_refl, if_pos, h,
      PRes.bind, hlen]
    norm_num
    decide
  exact ⟨hmain, fun bytes hok => by rw [hmain] at hok; exact PRes.noConfusion hok⟩

/-- C1 witness: the panic at the concrete signature string `some_fn(u8)` with
a concrete 32-byte digest function. -/
theorem first_four_bytes_panic_witness :
    first_four_bytes_of_sha256_hash digest32 "some_fn(u8)"
      = .panic "source slice length (4) does not match destination slice length (0)"
    ∧ ∀ bytes, first_four_bytes_of_sha256_hash digest32 "some_fn(u8)" ≠ .ok bytes :=
  first_four_bytes_of_sha256_hash_always_panics digest32 "some_fn(u8)" (by decide)

/-- C6: on an array-shaped `type_field` whose length cannot be parsed, the
encoder does NOT return a recoverable `MalformedArrayLength` error — it aborts
the process through `expect("should be ok")`; a well-formed `"[_; 10]"` tag
renders as claimed. -/
theorem fnselectify_malformed_array_len_aborts :
    fnselectify (.mk "[_; x]" [] [.mk "u8" [] []]) = .panic "should be ok"
    ∧ extract_array_len "[_; x]" = none
    ∧ fnselectify (.mk "[_; 10]" [] [.mk "u8" [] []]) = .ok "a[u8;10]"
    ∧ extract_array_len "[_; 10]" = some 10 :=
  ⟨rfl, rfl, rfl, rfl⟩

/-- C9: signature resolution and selector computation are pure functions of
the explicit (name, arguments, lookup) inputs: equal inputs give byte-identical
outcomes (the shallow embedding has no other state a run could depend on). -/
theorem pipeline_deterministic (sha256 : String → List Nat) (fuel : Nat)
    (name1 name2 : String) (args1 args2 : List TypeApplication)
    (lookup1 lookup2 : Lookup)
    (hn : name1 = name2) (ha : args1 = args2) (hl : lookup1 = lookup2) :
    resolve_fn_signature fuel name1 args1 lookup1
      = resolve_fn_signature fuel name2 args2 lookup2
    ∧ resolve_fn_selector sha256 fuel name1 args1 lookup1
      = resolve_fn_selector sha256 fuel name2 args2 lookup2 := by
  subst hn; subst ha; subst hl
  exact ⟨rfl, rfl⟩

/-- C9 witness: determinism at the concrete `some_fn(u8)` document. -/
theorem pipeline_deterministic_witness :
    resolve_fn_signature 3 "some_fn" [arg0] u8OnlyLookup
      = resolve_fn_signature 3 "some_fn" [arg0] u8OnlyLookup
    ∧ resolve_fn_selector digest32 3 "some_fn" [arg0] u8OnlyLookup
      = resolve_fn_selector digest32 3 "some_fn" [arg0] u8OnlyLookup :=
  pipeline_deterministic digest32 3 "some_fn" "some_fn" [arg0] [arg0]
    u8OnlyLookup u8OnlyLookup rfl rfl rfl

/-- C8 counterexample: an empty function name is NOT rejected — signature
computation runs the full resolution (the `u8` in the output came through the
type lookup) and succeeds with the name-less signature `(u8)`. -/
theorem empty_name_signature_cex :
    resolve_fn_signature 2 "" [arg0] u8OnlyLookup = .ok "(u8)" := rfl

/-- C8 (amended): the resolver itself performs no empty-name check — with an
empty name it performs lookup and resolution exactly as with any other name
and yields `(` ++ args ++ `)`; the empty-name rejection of the spec lives at
function construction in the abi layer, where both `FullABIFunction::new` and
`UnifiedABIFunction::new` error on an empty name and accept any other. -/
theorem empty_name_not_rejected_by_resolver (fuel : Nat)
    (args : List TypeApplication) (lookup : Lookup) (parts : List String)
    (inputs : List FullTypeApplication) (output : FullTypeApplication)
    (uinputs : List UnifiedTypeApplication) (uoutput : UnifiedTypeApplication)
    (attrs : List Attribute) (nm : String)
    (hparts : sigParts fuel lookup args = .ok parts) (hnm : nm ≠ "") :
    resolve_fn_signature fuel "" args lookup = .ok ("(" ++ joinComma parts ++ ")")
    ∧ FullABIFunction.new "" inputs output attrs
        = .error "FullABIFunction's name cannot be empty!"
    ∧ FullABIFunction.new nm inputs output attrs = .ok ⟨nm, inputs, output, attrs⟩
    ∧ UnifiedABIFunction.new "" uinputs uoutput attrs
        = .error "UnifiedABIFunction's name cannot be empty!"
    ∧ UnifiedABIFunction.new nm uinputs uoutput attrs
        = .ok ⟨nm, uinputs, uoutput, some attrs⟩ := by
  refine ⟨?_, rfl, ?_, rfl, ?_⟩
  · unfold resolve_fn_signature
    rw [hparts]
    rfl
  · unfold FullABIFunction.new
    rw [if_neg hnm]
  · unfold UnifiedABIFunction.new
    rw [if_neg hnm]

/-- C8 witness: the empty name sails through at the `u8` document, while both
abi-layer constructors reject it and accept `some_fn`. -/
theorem empty_name_witness :
    resolve_fn_signature 2 "" [arg0] u8OnlyLookup = .ok ("(" ++ joinComma ["u8"] ++ ")")
    ∧ FullABIFunction.new "" [] unitFullTA []
        = .error "FullABIFunction's name cannot be empty!"
    ∧ FullABIFunction.new "some_fn" [] unitFullTA []
        = .ok ⟨"some_fn", [], unitFullTA, []⟩
    ∧ UnifiedABIFunction.new "" [] unitUnifiedTA []
        = .error "UnifiedABIFunction's name cannot be empty!"
    ∧ UnifiedABIFunction.new "some_fn" [] unitUnifiedTA []
        = .ok ⟨"some_fn", [], unitUnifiedTA, some []⟩ :=
  empty_name_not_rejected_by_resolver 2 [arg0] u8OnlyLookup ["u8"] [] unitFullTA
    [] unitUnifiedTA [] "some_fn" rfl (by decide)

/-- C2: for a declaration with a non-empty type-parameter list, the
substitution context used for its components pairs the parameter ids
positionally (by `zip`, so the shorter list wins and unmatched ids are
dropped) with the application's type arguments resolved under the PARENT
context when that list is non-empty, and with the parent context's bound
values, in order, otherwise. -/
theorem determine_generics_positional_pairing (fuel : Nat) (ta : TypeApplication)
    (lookup : Lookup) (decl : TypeDeclaration) (parent : Ctx) (params : List Nat)
    (resolvedArgs : List ResolvedType)
    (hparams : decl.type_parameters = some params) (hne : params ≠ [])
    (hargs : rmap (fun ty => resolve fuel ty lookup parent) (optList ta.type_arguments)
      = .ok resolvedArgs) :
    determine_generics_for_type fuel ta lookup decl parent
      = .ok (params.zip
          (if resolvedArgs.isEmpty then parent.map (fun p => p.2) else resolvedArgs))
    ∧ (params.zip
          (if resolvedArgs.isEmpty then parent.map (fun p => p.2) else resolvedArgs)).length
      = min params.length
          (if resolvedArgs.isEmpty then parent.map (fun p => p.2) else resolvedArgs).length
    ∧ ∀ (k : Nat) (i : Nat) (r : ResolvedType),
        (params.zip
          (if resolvedArgs.isEmpty then parent.map (fun p => p.2) else resolvedArgs))[k]?
          = some (i, r) →
        params[k]? = some i
        ∧ (if resolvedArgs.isEmpty then parent.map (fun p => p.2) else resolvedArgs)[k]?
            = some r := by
  have hP : params.isEmpty = false := by
    cases params with
    | nil => exact absurd rfl hne
    | cons a l => rfl
  refine ⟨?_, List.length_zip _ _, fun k i r hk => zip_getElem?_eq _ _ k i r hk⟩
  unfold determine_generics_for_type determine_generics_core
  rw [hparams]
  simp only [hP, Bool.false_eq_true, if_false, hargs, PRes.bind]
  cases hre : resolvedArgs.isEmpty with
  | true => simp [hre]
  | false => simp [hre]

/-- C2 witness: the generic struct document binds parameter id 1 to the
resolved `u8` supplied at the application site. -/
theorem determine_generics_witness :
    determine_generics_for_type 3 genApp genLookup someStructDecl []
      = .ok [(1, .mk "u8" [] [])] := by
  have h := (determine_generics_positional_pairing 3 genApp genLookup someStructDecl []
    [1] [.mk "u8" [] []] rfl (by decide) rfl).1
  simpa using h

/-- C3: when the target declaration's `type_field` is a generic placeholder,
`resolve` returns the Resolved Type bound to the application's type id in the
current substitution context verbatim (a leaf — no component of the
placeholder is resolved), and fails with the `UnresolvedGeneric` condition
(surfaced as `Error::FnSelectorResolving`) when the context holds no binding
for that id. -/
theorem resolve_generic_placeholder_spec (fuel : Nat) (ta : TypeApplication)
    (lookup : Lookup) (parent : Ctx) (decl : TypeDeclaration) (nm : String)
    (hdecl : lookupGet lookup ta.type_id = some decl)
    (hgen : extract_generic_name decl.type_field = some nm) :
    (∀ pr, parent.find? (fun p => p.1 == ta.type_id) = some pr →
        resolve (fuel + 1) ta lookup parent = .ok pr.2)
    ∧ (parent.find? (fun p => p.1 == ta.type_id) = none →
        resolve (fuel + 1) ta lookup parent = .err .FnSelectorResolving) := by
  have hSome : (extract_generic_name decl.type_field).isSome = true := by
    rw [hgen]; rfl
  constructor
  · intro pr hpr
    simp only [resolve, hdecl, hSome, if_true, hpr]
  · intro hnone
    simp only [resolve, hdecl, hSome, if_true, hnone]

/-- C3 witness: under `genLookup`, the placeholder application at id 1
resolves to the bound `u8` when the context binds id 1, and errors when the
context is empty. -/
theorem resolve_generic_placeholder_witness :
    resolve 1 (.mk "field" 1 none) genLookup [(1, .mk "u8" [] [])]
      = .ok (.mk "u8" [] [])
    ∧ resolve 1 (.mk "field" 1 none) genLookup []
      = .err .FnSelectorResolving := by
  constructor
  · exact (resolve_generic_placeholder_spec 0 (.mk "field" 1 none) genLookup
      [(1, .mk "u8" [] [])] ⟨1, "generic T", none, none⟩ "T" rfl rfl).1
      (1, .mk "u8" [] []) rfl
  · exact (resolve_generic_placeholder_spec 0 (.mk "field" 1 none) genLookup
      [] ⟨1, "generic T", none, none⟩ "T" rfl rfl).2 rfl

/-- C7: a Type Application whose id is absent from the lookup makes `resolve`
return the `UnknownTypeId` condition (surfaced as
`Error::FnSelectorResolving`) in one step — no panic outcome, no partial
Resolved Type — and the whole selector computation for a function with that
argument aborts with the same error (before the hasher can run). -/
theorem resolve_unknown_type_id (fuel : Nat) (ta : TypeApplication)
    (lookup : Lookup) (parent : Ctx) (name : String) (sha256 : String → List Nat)
    (h : lookupGet lookup ta.type_id = none) :
    resolve (fuel + 1) ta lookup parent = .err .FnSelectorResolving
    ∧ (∀ t, resolve (fuel + 1) ta lookup parent ≠ .ok t)
    ∧ (∀ m, resolve (fuel + 1) ta lookup parent ≠ .panic m)
    ∧ resolve_fn_selector sha256 (fuel + 1) name [ta] lookup
        = .err .FnSelectorResolving := by
  have herr : ∀ ctx : Ctx, resolve (fuel + 1) ta lookup ctx = .err .FnSelectorResolving := by
    intro ctx
    simp only [resolve, h]
  refine ⟨herr parent, ?_, ?_, ?_⟩
  · intro t hok
    rw [herr parent] at hok
    exact PRes.noConfusion hok
  · intro m hpanic
    rw [herr parent] at hpanic
    exact PRes.noConfusion hpanic
  · unfold resolve_fn_selector resolve_fn_signature sigParts ResolvedType.try_from
    rw [herr []]
    rfl

/-- C7 witness: the empty lookup at the application `arg0`. -/
theorem resolve_unknown_type_id_witness :
    resolve 1 arg0 [] [] = .err .FnSelectorResolving
    ∧ (∀ t, resolve 1 arg0 [] [] ≠ .ok t)
    ∧ (∀ m, resolve 1 arg0 [] [] ≠ .panic m)
    ∧ resolve_fn_selector digest32 1 "some_fn" [arg0] [] = .err .FnSelectorResolving :=
  resolve_unknown_type_id 0 arg0 [] [] "some_fn" digest32 rfl

/-- A successful `determine_generics_for_type` run only binds values that the
parent context held or that a successful argument resolution produced, so it
preserves the context invariant. -/
theorem determine_core_preserves_inv
    (resolveArg : TypeApplication → PRes ResolvedType) (ta : TypeApplication)
    (decl : TypeDeclaration) (parent : Ctx) (ctx : Ctx)
    (hpar : ∀ p ∈ parent, noGenericTag p.2 = true)
    (hres : ∀ a r, resolveArg a = .ok r → noGenericTag r = true)
    (h : determine_generics_core resolveArg ta decl parent = .ok ctx) :
    ∀ p ∈ ctx, noGenericTag p.2 = true := by
  unfold determine_generics_core at h
  cases hps : decl.type_parameters with
  | none =>
    rw [hps] at h
    dsimp only at h
    have : parent = ctx := by simpa using h
    subst this
    exact hpar
  | some params =>
    rw [hps] at h
    dsimp only at h
    by_cases he : params.isEmpty
    · rw [if_pos he] at h
      have : parent = ctx := by simpa using h
      subst this
      exact hpar
    · rw [if_neg he] at h
      obtain ⟨fromCurrent, hfc, h2⟩ := PRes.bind_eq_ok h
      have hctx : params.zip
          (if !fromCurrent.isEmpty then fromCurrent else parent.map (fun p => p.2))
          = ctx := by simpa using h2
      subst hctx
      intro p hp
      obtain ⟨i, r⟩ := p
      have hmem := (List.of_mem_zip hp).2
      cases hfcE : fromCurrent.isEmpty with
      | true =>
        simp only [hfcE, Bool.not_true, Bool.false_eq_true, if_false] at hmem
        obtain ⟨q, hq, hqr⟩ := List.mem_map.mp hmem
        exact hqr ▸ hpar q hq
      | false =>
        simp only [hfcE, Bool.not_false, if_true] at hmem
        obtain ⟨a, ha, hra⟩ := rmap_ok_mem hfc r hmem
        exact hres a r hra

/-- A successful `resolve` run, under a context whose bound values are free of
generic placeholder tags, produces a tree free of generic placeholder tags. -/
theorem resolve_ok_noGenericTag :
    ∀ (fuel : Nat) (ta : TypeApplication) (lookup : Lookup) (parent : Ctx)
      (t : ResolvedType),
      (∀ p ∈ parent, noGenericTag p.2 = true) →
      resolve fuel ta lookup parent = .ok t → noGenericTag t = true := by
  intro fuel
  induction fuel with
  | zero =>
    intro ta lookup parent t _ h
    exact PRes.noConfusion h
  | succ f ih =>
    intro ta lookup parent t hpar h
    rw [resolve] at h
    cases hl : lookupGet lookup ta.type_id with
    | none =>
      rw [hl] at h
      exact PRes.noConfusion h
    | some decl =>
      rw [hl] at h
      dsimp only at h
      by_cases hg : (extract_generic_name decl.type_field).isSome = true
      · rw [if_pos hg] at h
        cases hf : parent.find? (fun p => p.1 == ta.type_id) with
        | none =>
          rw [hf] at h
          exact PRes.noConfusion h
        | some pr =>
          rw [hf] at h
          have hpt : pr.2 = t := by simpa using h
          exact hpt ▸ hpar pr (List.mem_of_find?_eq_some hf)
      · rw [if_neg hg] at h
        obtain ⟨ctx, hctx, h2⟩ := PRes.bind_eq_ok h
        obtain ⟨comps, hcomps, h3⟩ := PRes.bind_eq_ok h2
        have ht : ResolvedType.mk decl.type_field (ctx.map (fun p => p.2)) comps = t := by
          simpa using h3
        subst ht
        have hctxI : ∀ p ∈ ctx, noGenericTag p.2 = true :=
          determine_core_preserves_inv _ ta decl parent ctx hpar
            (fun a r hr => ih a lookup parent r hpar hr) hctx
        have hcompsI : ∀ c ∈ comps, noGenericTag c = true := by
          intro c hc
          obtain ⟨x, hx, hfx⟩ := rmap_ok_mem hcomps c hc
          exact ih x lookup ctx c hctxI hfx
        have hNone : (extract_generic_name decl.type_field).isNone = true := by
          cases hOpt : extract_generic_name decl.type_field with
          | none => rfl
          | some v => exact absurd (by rw [hOpt]; rfl) hg
        simp only [noGenericTag, Bool.and_eq_true, hNone, noGenericTagList_iff,
          true_and]
        constructor
        · intro r hr
          obtain ⟨q, hq, hqr⟩ := List.mem_map.mp hr
          exact hqr ▸ hctxI q hq
        · exact hcompsI

/-- C4: the invariant of the resolution output — a successful
`ResolvedType::try_from` run (empty starting context) returns a tree no node
of which (root, component or bound generic parameter, recursively) carries a
generic placeholder tag `generic <Name>`. -/
theorem try_from_ok_has_no_generic_tag (fuel : Nat) (ta : TypeApplication)
    (lookup : Lookup) (t : ResolvedType)
    (h : ResolvedType.try_from fuel ta lookup = .ok t) :
    noGenericTag t = true :=
  resolve_ok_noGenericTag fuel ta lookup [] t (fun p hp => absurd hp (List.not_mem_nil p)) h

/-- C4 witness: the generic struct document resolves to a concrete tree and
the invariant evaluates to `true` on it. -/
theorem try_from_no_generic_tag_witness :
    noGenericTag (.mk "struct SomeStruct" [.mk "u8" [] []] [.mk "u8" [] []]) = true :=
  try_from_ok_has_no_generic_tag 4 genApp genLookup
    (.mk "struct SomeStruct" [.mk "u8" [] []] [.mk "u8" [] []]) rfl

/-- The comma-joined list is the empty string exactly for the empty list and
for the single empty string. -/
theorem joinComma_eq_empty_iff (gs : List String) :
    joinComma gs = "" ↔ gs = [] ∨ gs = [""] := by
  match gs with
  | [] => simp [joinComma]
  | [s] => simp [joinComma]
  | s :: t :: r =>
    simp only [joinComma]
    refine iff_of_false (fun h => ?_) (fun h => ?_)
    · have hlen := congrArg String.length h
      rw [String.length_append, String.length_append] at hlen
      have h1 : (("," : String)).length = 1 := rfl
      have h0 : (("" : String)).length = 0 := rfl
      omega
    · rcases h with h | h
      · exact List.noConfusion h
      · injection h with h1 h2
        exact List.noConfusion h2

/-- C5 counterexample: a struct node with a NON-empty `generic_params` list
whose sole element encodes to the empty string renders with the angle-bracket
segment omitted — the source omits the segment when the joined encoding
string is empty, not exactly when the list is empty. -/
theorem fnselectify_generics_omission_cex :
    fnselectify (.mk "struct S" [.mk "" [] []] []) = .ok "s()"
    ∧ (ResolvedType.mk "struct S" [.mk "" [] []] []).generic_params ≠ []
    ∧ ∀ c ∈ "s()".toList, c ≠ '<' := by
  refine ⟨rfl, ?_, by decide⟩
  simp [ResolvedType.generic_params]

/-- C5 (amended): a struct (resp. enum) tagged Resolved Type renders as
`s<G1,...>(C1,...)` (resp. `e<...>(...)`) with the generics and components
encoded in declared order and joined by commas — components first — and the
angle-bracket segment is omitted exactly when the comma-joined generic
encodings form the empty string (which holds when `generic_params` is empty,
and also for a single generic encoding to the empty string). -/
theorem fnselectify_struct_enum_rendering (tf : String)
    (gps comps : List ResolvedType) (cs gs : List String)
    (hcs : fnselectifyList comps = .ok cs) (hgs : fnselectifyList gps = .ok gs) :
    (strStarts "struct " tf = true →
      fnselectify (.mk tf gps comps)
        = .ok ("s" ++ (if joinComma gs = "" then "" else "<" ++ joinComma gs ++ ">")
            ++ "(" ++ joinComma cs ++ ")"))
    ∧ (strStarts "enum " tf = true →
      fnselectify (.mk tf gps comps)
        = .ok ("e" ++ (if joinComma gs = "" then "" else "<" ++ joinComma gs ++ ">")
            ++ "(" ++ joinComma cs ++ ")"))
    ∧ (joinComma gs = "" ↔ gs = [] ∨ gs = [""]) := by
  refine ⟨fun hs => ?_, fun hs => ?_, joinComma_eq_empty_iff gs⟩
  · have h1 : ¬(tf = "raw untyped slice") := fun he => absurd (he ▸ hs) (by decide)
    have h2 : ¬(tf = "raw untyped ptr") := fun he => absurd (he ▸ hs) (by decide)
    rw [fnselectify.eq_def]
    dsimp only
    rw [if_neg h1, if_neg h2, if_pos hs, hcs]
    dsimp only [PRes.bind]
    rw [hgs]
  · have h1 : ¬(tf = "raw untyped slice") := fun he => absurd (he ▸ hs) (by decide)
    have h2 : ¬(tf = "raw untyped ptr") := fun he => absurd (he ▸ hs) (by decide)
    obtain ⟨bs, hbs, -⟩ := @leadChars_cons 'e' ("num ".toList) tf.toList hs
    have hstruct : strStarts "struct " tf = false := by
      show leadChars ("struct ".toList) tf.toList = false
      rw [hbs]
      rfl
    rw [fnselectify.eq_def]
    dsimp only
    rw [if_neg h1, if_neg h2, if_neg (by simp [hstruct]), if_pos hs, hcs]
    dsimp only [PRes.bind]
    rw [hgs]

/-- C5 witness: the generic struct and a generic enum render with the
generics segment ahead of the component list. -/
theorem fnselectify_rendering_witness :
    fnselectify (.mk "struct SomeStruct" [.mk "u8" [] []] [.mk "u8" [] []])
      = .ok "s<u8>(u8)"
    ∧ fnselectify (.mk "enum SomeEnum" [.mk "u8" [] []] [.mk "u8" [] []])
      = .ok "e<u8>(u8)" := by
  constructor
  · exact (fnselectify_struct_enum_rendering "struct SomeStruct"
      [.mk "u8" [] []] [.mk "u8" [] []] ["u8"] ["u8"] rfl rfl).1 (by decide)
  · exact (fnselectify_struct_enum_rendering "enum SomeEnum"
      [.mk "u8" [] []] [.mk "u8" [] []] ["u8"] ["u8"] rfl rfl).2.1 (by decide)

/-- C10: encoding is total only when every array-shaped node has a component:
an array-tagged Resolved Type with an empty components list makes the encoder
abort through `expect("should have")` instead of returning a typed error, and
the abort is reachable from the public pipeline through a lookup whose array
declaration carries no components. -/
theorem fnselectify_array_missing_component_panics (tf : String)
    (gps : List ResolvedType)
    (h1 : strStarts "[" tf = true) (h2 : strEnds "]" tf = true) :
    fnselectify (.mk tf gps []) = .panic "should have"
    ∧ resolve_fn_signature 2 "some_fun" [arg0] arrNoCompLookup
        = .panic "should have" := by
  refine ⟨?_, rfl⟩
  have hA : ¬(tf = "raw untyped slice") := fun he => absurd (he ▸ h1) (by decide)
  have hB : ¬(tf = "raw untyped ptr") := fun he => absurd (he ▸ h1) (by decide)
  obtain ⟨bs, hbs, -⟩ := @leadChars_cons '[' ([] : List Char) tf.toList h1
  have hstruct : strStarts "struct " tf = false := by
    show leadChars ("struct ".toList) tf.toList = false
    rw [hbs]
    rfl
  have henum : strStarts "enum " tf = false := by
    show leadChars ("enum ".toList) tf.toList = false
    rw [hbs]
    rfl
  have hparen : strStarts "(" tf = false := by
    show leadChars ("(".toList) tf.toList = false
    rw [hbs]
    rfl
  rw [fnselectify]
  rw [if_neg hA, if_neg hB, if_neg (by simp [hstruct]), if_neg (by simp [henum]),
    if_neg (by simp [hparen]), if_pos (by simp [h1, h2])]

/-- C10 witness: the concrete array tag `[_; 10]` with no components. -/
theorem fnselectify_missing_component_witness :
    fnselectify (.mk "[_; 10]" [] []) = .panic "should have"
    ∧ resolve_fn_signature 2 "some_fun" [arg0] arrNoCompLookup
        = .panic "should have" :=
  fnselectify_array_missing_component_panics "[_; 10]" [] (by decide) (by decide)

end FuelAbi
